import Mathlib

/-!
Verification of the nitrojs query core (src/index.tsx): cache-key
generation, the useQuery / useMutation / useAsync / useSuspenseQuery
execution controllers, the result cache, and the lifecycle guard.

The TypeScript hooks are embedded as pure Lean functions.  A single
execution of a controller is modelled as a function from its inputs
(options, computed cache key, the producer's settlement, the value of the
`isMounted` ref at each suspension point, and the current cache contents)
to the list of state publications it performs and the cache it leaves
behind.  State publications are explicit events (`Pub`), split into the
publications made synchronously before the producer's suspension point
(`prePubs`) and those made at/after settlement (`postPubs`), so that
lifecycle-guard and ordering claims can be stated about the trace.
-/

namespace NitroQuery

/-- A JavaScript value, as far as cache-key serialization is concerned.
Objects are ordered field lists, reflecting JS insertion order (keys are
unique in actual JS objects).  `undef` is JavaScript `undefined`. -/
inductive JSValue where
  | nul
  | undef
  | boolean (b : Bool)
  | num (n : Int)
  | str (s : String)
  | arr (xs : List JSValue)
  | obj (fields : List (String × JSValue))

/-- JSON string escaping for the characters that matter for well-formedness
(quote and backslash); other characters are kept verbatim. -/
def escapeJsonChar (c : Char) : String :=
  if c = '"' then "\\\"" else if c = '\\' then "\\\\" else String.singleton c

/-- Escape a string for inclusion in a JSON string literal. -/
def escapeJson (s : String) : String :=
  String.join (s.toList.map escapeJsonChar)

/-- A JSON string literal: the escaped content wrapped in quotes. -/
def quoteJson (s : String) : String :=
  "\"" ++ escapeJson s ++ "\""

mutual

/-- `JSON.stringify` on a JS value.  Inside arrays `undefined` serializes
as `null`; object fields with `undefined` values are skipped (we only ever
apply this at an array of arguments, so the top-level `undef` case is the
array-element rule). -/
def jsonStringify : JSValue → String
  | .nul => "null"
  | .undef => "null"
  | .boolean true => "true"
  | .boolean false => "false"
  | .num n => toString n
  | .str s => quoteJson s
  | .arr xs => "[" ++ String.intercalate "," (stringifyElems xs) ++ "]"
  | .obj fs => "\x7b" ++ String.intercalate "," (stringifyFields fs) ++ "\x7d"

/-- Serialize the elements of a JS array. -/
def stringifyElems : List JSValue → List String
  | [] => []
  | v :: vs => jsonStringify v :: stringifyElems vs

/-- Serialize the fields of a JS object, skipping `undefined`-valued ones. -/
def stringifyFields : List (String × JSValue) → List String
  | [] => []
  | (_, .undef) :: fs => stringifyFields fs
  | (k, v) :: fs => (quoteJson k ++ ":" ++ jsonStringify v) :: stringifyFields fs

end

/-- First-match lookup of a field in a JS object's field list. -/
def lookupField (k : String) : List (String × JSValue) → Option JSValue
  | [] => none
  | (k', v) :: fs => if k' = k then some v else lookupField k fs

/-- Does every key of `gs` occur among the keys of `fs`? -/
def keysSubset (gs fs : List (String × JSValue)) : Bool :=
  gs.all fun kv => fs.any fun kv' => kv'.1 == kv.1

mutual

/-- Modelled from the spec: structural deep equality of JS values "by deep
value, not reference", as used by the key-stability claim.  Objects compare
key-order-insensitively: same key set, deep-equal values per key. -/
def deepEqual : JSValue → JSValue → Bool
  | .nul, .nul => true
  | .undef, .undef => true
  | .boolean a, .boolean b => a == b
  | .num a, .num b => a == b
  | .str a, .str b => a == b
  | .arr xs, .arr ys => deepEqualList xs ys
  | .obj fs, .obj gs => keysSubset gs fs && deepEqualFields fs gs
  | _, _ => false

/-- Pointwise deep equality of two JS value lists. -/
def deepEqualList : List JSValue → List JSValue → Bool
  | [], [] => true
  | x :: xs, y :: ys => deepEqual x y && deepEqualList xs ys
  | _, _ => false

/-- Every field of the first object has a deep-equal counterpart under the
same key in the second. -/
def deepEqualFields : List (String × JSValue) → List (String × JSValue) → Bool
  | [], _ => true
  | (k, v) :: fs, gs =>
    (match lookupField k gs with
     | some w => deepEqual v w
     | none => false) && deepEqualFields fs gs

end

/-- A producer function's observable identity: its `name` property (empty
string for anonymous functions) and its source text (`toString()`). -/
structure ProducerFn where
  name : String
  source : String
deriving DecidableEq

/-- `fn.name || fn.toString()`: the name when truthy (non-empty), else the
source text. -/
def fnIdentifier (f : ProducerFn) : String :=
  if f.name = "" then f.source else f.name

/-- `generateCacheKey` from src/index.tsx: the function identifier and the
JSON serialization of the argument array, joined with a dash. -/
def generateCacheKey (f : ProducerFn) (args : List JSValue) : String :=
  fnIdentifier f ++ "-" ++ jsonStringify (JSValue.arr args)

/-- A JavaScript `Error` object (identified by its message). -/
structure JSError where
  message : String
deriving DecidableEq

/-- A value thrown/rejected by a producer: either a native `Error`
(`e instanceof Error`) or an arbitrary non-error JS value. -/
inductive Thrown where
  | errorVal (e : JSError)
  | nonError (v : JSValue)

/-- The error normalization in every catch block of src/index.tsx:
`e instanceof Error ? e : new Error("An unexpected error occured :(")`. -/
def normalizeError : Thrown → JSError
  | .errorVal e => e
  | .nonError _ => ⟨"An unexpected error occured :("⟩

/-- How one producer invocation settles: it resolves with a value of the
result type `V`, or it throws/rejects with some value. -/
inductive Outcome (V : Type) where
  | success (v : V)
  | failure (t : Thrown)

/-- One state publication by a controller: a `setData`, `setLoading` or
`setError` call that actually executes (publications suppressed by a mount
guard never appear in a trace). -/
inductive Pub (V : Type) where
  | setData (v : V)
  | setLoading (b : Bool)
  | setError (e : Option JSError)
deriving DecidableEq

/-- The observable hook state `{ data?, loading, error? }`. -/
structure ExecState (V : Type) where
  data : Option V
  loading : Bool
  error : Option JSError
deriving DecidableEq

/-- The state before any publication: `useState<R>()`, `useState(false)`,
`useState<Error>()`. -/
def initState (V : Type) : ExecState V := ⟨none, false, none⟩

/-- Apply one publication to the hook state. -/
def applyPub (st : ExecState V) : Pub V → ExecState V
  | .setData v => { st with data := some v }
  | .setLoading b => { st with loading := b }
  | .setError e => { st with error := e }

/-- Apply a trace of publications in order. -/
def applyPubs (st : ExecState V) (ps : List (Pub V)) : ExecState V :=
  ps.foldl applyPub st

/-- The process-wide result cache (`cache = new Map<string, unknown>()`),
as an insertion-ordered association list. -/
abbrev Cache (V : Type) : Type := List (String × V)

/-- `cache.get(k)` / `cache.has(k)`: first-match lookup. -/
def cacheLookup : Cache V → String → Option V
  | [], _ => none
  | (k', v) :: rest, k => if k' = k then some v else cacheLookup rest k

/-- `cache.set(k, v)` on a JS `Map`: overwrite the existing entry in place,
or append a new one. -/
def cacheSet : Cache V → String → V → Cache V
  | [], k, v => [(k, v)]
  | (k', w) :: rest, k, v =>
    if k' = k then (k, v) :: rest else (k', w) :: cacheSet rest k v

/-- Result of one `runQuery` execution in `useQuery`: the publications made
before the producer's suspension point, the publications made at/after
settlement, the cache left behind, and whether the producer was invoked. -/
structure QueryRun (V : Type) where
  prePubs : List (Pub V)
  postPubs : List (Pub V)
  cache : Cache V
  invoked : Bool
deriving DecidableEq

/-- The `runQuery` closure of `useQuery` (src/index.tsx lines 87-120).
If caching is on and the key is present, it publishes the cached value and
`loading=false` and returns without invoking the producer (this path has no
mount guard).  Otherwise it publishes `loading=true` (unguarded, before the
suspension point), invokes the producer, and at settlement — with every
publication and the cache write guarded by `isMounted.current`, here the
`mounted` argument — publishes `data` and writes through to the cache on
success, or publishes the normalized error on failure, and finally
publishes `loading=false`.  Note: no path publishes `setError none`; the
prior error is never cleared. -/
def runQuery (useCacheOption : Bool) (cacheKey : String) (outcome : Outcome V)
    (mounted : Bool) (c : Cache V) : QueryRun V :=
  match useCacheOption, cacheLookup c cacheKey with
  | true, some v =>
    { prePubs := [.setData v, .setLoading false], postPubs := [],
      cache := c, invoked := false }
  | _, _ =>
    match outcome with
    | .success v =>
      if mounted then
        { prePubs := [.setLoading true],
          postPubs := [.setData v, .setLoading false],
          cache := if useCacheOption then cacheSet c cacheKey v else c,
          invoked := true }
      else
        { prePubs := [.setLoading true], postPubs := [],
          cache := c, invoked := true }
    | .failure e =>
      if mounted then
        { prePubs := [.setLoading true],
          postPubs := [.setError (some (normalizeError e)), .setLoading false],
          cache := c, invoked := true }
      else
        { prePubs := [.setLoading true], postPubs := [],
          cache := c, invoked := true }

/-- Result of one `mutate` call in `useMutation`: as `QueryRun`, plus the
argument the `onSuccess` callback was invoked with (if it was). -/
structure MutateRun (V : Type) where
  prePubs : List (Pub V)
  postPubs : List (Pub V)
  cache : Cache V
  invoked : Bool
  onSuccessArg : Option V
deriving DecidableEq

/-- The `mutate` callback of `useMutation` (src/index.tsx lines 185-226).
There is no cache lookup: the producer is always invoked.  `setLoading(true)`
is guarded by the mount flag as read before the suspension point
(`mounted0`); the settlement publications, the `onSuccess` callback and the
cache write-through are guarded by the flag as read after it (`mounted1`).
No path clears a prior error. -/
def mutate (useCacheOption : Bool) (cacheKey : String) (outcome : Outcome V)
    (mounted0 mounted1 : Bool) (c : Cache V) : MutateRun V :=
  let pre : List (Pub V) := if mounted0 then [.setLoading true] else []
  match outcome with
  | .success v =>
    if mounted1 then
      { prePubs := pre, postPubs := [.setData v, .setLoading false],
        cache := if useCacheOption then cacheSet c cacheKey v else c,
        invoked := true, onSuccessArg := some v }
    else
      { prePubs := pre, postPubs := [], cache := c,
        invoked := true, onSuccessArg := none }
  | .failure e =>
    if mounted1 then
      { prePubs := pre,
        postPubs := [.setError (some (normalizeError e)), .setLoading false],
        cache := c, invoked := true, onSuccessArg := none }
    else
      { prePubs := pre, postPubs := [], cache := c,
        invoked := true, onSuccessArg := none }

/-- Result of one `useSuspenseQuery` execution: there is no loading state,
so only settlement publications, the cache, and the invocation flag. -/
structure SuspenseRun (V : Type) where
  postPubs : List (Pub V)
  cache : Cache V
  invoked : Bool
deriving DecidableEq

/-- The effect body of `useSuspenseQuery` (src/index.tsx lines 493-527; the
`refetch` closure at lines 532-555 is the same logic).  There is no cache
lookup and no loading state: the producer is always invoked, and at
settlement — guarded by `isMounted.current`.(`mounted`) — `data` is
published and written through to the cache on success, or the normalized
error is published on failure. -/
def runSuspenseQuery (useCacheOption : Bool) (cacheKey : String)
    (outcome : Outcome V) (mounted : Bool) (c : Cache V) : SuspenseRun V :=
  match outcome with
  | .success v =>
    if mounted then
      { postPubs := [.setData v],
        cache := if useCacheOption then cacheSet c cacheKey v else c,
        invoked := true }
    else
      { postPubs := [], cache := c, invoked := true }
  | .failure e =>
    if mounted then
      { postPubs := [.setError (some (normalizeError e))],
        cache := c, invoked := true }
    else
      { postPubs := [], cache := c, invoked := true }

/-- Result of one call to the function returned by `useAsync`: the value
returned synchronously to the caller, and the publication trace. -/
structure AsyncRun (V : Type) where
  immediateReturn : Option V
  prePubs : List (Pub V)
  postPubs : List (Pub V)
deriving DecidableEq

/-- The `newFn` callback of `useAsync` (src/index.tsx lines 261-287).  It
synchronously publishes `setError(undefined)` and `setLoading(true)`,
invokes the wrapped function, and at settlement publishes `data` (or the
normalized error) and then `loading=false`.  `useAsync` has no `isMounted`
ref: the `_live` argument (the consuming context's liveness at settlement)
is deliberately ignored, because no publication is mount-guarded in the
source.  The call returns the render-time `data` value immediately. -/
def newFn (outcome : Outcome V) (_live : Bool) (st : ExecState V) : AsyncRun V :=
  { immediateReturn := st.data
    prePubs := [.setError none, .setLoading true]
    postPubs :=
      match outcome with
      | .success v => [.setData v, .setLoading false]
      | .failure e => [.setError (some (normalizeError e)), .setLoading false] }

/-- The payload publication of a settlement: `setData` with the resolved
value on success, `setError` with the normalized error on failure. -/
def settledPub : Outcome V → Pub V
  | .success v => .setData v
  | .failure t => .setError (some (normalizeError t))

/-! ## Helper lemmas -/

/-- Writing a key into the cache makes it readable under that key. -/
theorem cacheLookup_cacheSet_self (c : Cache V) (k : String) (v : V) :
    cacheLookup (cacheSet c k v) k = some v := by
  induction c with
  | nil => simp [cacheSet, cacheLookup]
  | cons kv rest ih =>
    obtain ⟨k', w⟩ := kv
    by_cases h : k' = k <;> simp [cacheSet, cacheLookup, h, ih]

/-- On a cache miss (or with caching off) settling successfully while
mounted, `runQuery` publishes loading-on, then data and loading-off, and
writes through exactly when caching is on. -/
theorem runQuery_miss_success (u : Bool) (k : String) (v : V) (c : Cache V)
    (h : cacheLookup c k = none) :
    runQuery u k (Outcome.success v) true c =
      ⟨[Pub.setLoading true], [Pub.setData v, Pub.setLoading false],
        if u then cacheSet c k v else c, true⟩ := by
  cases u <;> simp [runQuery, h]

/-- On a cache hit with caching on, `runQuery` publishes the cached value
and loading-off, touches nothing else, and never invokes the producer. -/
theorem runQuery_hit (k : String) (o : Outcome V) (m : Bool) (c : Cache V)
    (v : V) (h : cacheLookup c k = some v) :
    runQuery true k o m c = ⟨[Pub.setData v, Pub.setLoading false], [], c, false⟩ := by
  simp [runQuery, h]

/-! ## Claims -/

/-- C1: after a `useQuery` execution with caching enabled for key `k`
resolves successfully with `v` while the context is mounted, the cache
holds `v` under `k`, and every subsequent `useQuery` execution for `k` with
caching enabled publishes the cached value as `data` and does not invoke
the producer at all.  (The first execution is a genuine producer run, i.e.
a cache miss, per the claim's premise that the producer resolves.) -/
theorem runQuery_cache_roundtrip (V : Type) (c : Cache V) (k : String) (v : V)
    (o₂ : Outcome V) (m : Bool) (st : ExecState V)
    (h : cacheLookup c k = none) :
    (runQuery true k (Outcome.success v) true c).invoked = true ∧
    cacheLookup (runQuery true k (Outcome.success v) true c).cache k = some v ∧
    runQuery true k o₂ m (runQuery true k (Outcome.success v) true c).cache
      = ⟨[Pub.setData v, Pub.setLoading false], [], cacheSet c k v, false⟩ ∧
    (applyPubs st ([Pub.setData v, Pub.setLoading false] ++ [])).data
      = some v := by
  have h1 := runQuery_miss_success true k v c h
  have h2 := cacheLookup_cacheSet_self c k v
  rw [h1]
  refine ⟨rfl, h2, runQuery_hit k o₂ m (cacheSet c k v) v h2, rfl⟩

/-- Witness for C1 at a concrete input. -/
theorem runQuery_cache_roundtrip_witness :
    cacheLookup ([] : Cache Nat) "k" = none ∧
    ((runQuery true "k" (Outcome.success (3 : Nat)) true []).invoked = true ∧
     cacheLookup (runQuery true "k" (Outcome.success (3 : Nat)) true []).cache
       "k" = some 3 ∧
     runQuery true "k" (Outcome.success (0 : Nat)) true
         (runQuery true "k" (Outcome.success (3 : Nat)) true []).cache
       = ⟨[Pub.setData 3, Pub.setLoading false], [], cacheSet [] "k" 3, false⟩ ∧
     (applyPubs (initState Nat)
         ([Pub.setData 3, Pub.setLoading false] ++ [])).data = some 3) :=
  ⟨rfl, runQuery_cache_roundtrip Nat [] "k" 3 (Outcome.success 0) true
    (initState Nat) rfl⟩

/-- C2 counterexample: a successful, caching-enabled execution whose
context detached before settlement does NOT write the cache, in all three
caching variants — refuting "the cache is always written through on
success regardless of liveness". -/
theorem detached_success_skips_cache_write_cex :
    (runQuery true "k" (Outcome.success (42 : Nat)) false []).cache = [] ∧
    (mutate true "k" (Outcome.success (42 : Nat)) true false []).cache = [] ∧
    (runSuspenseQuery true "k" (Outcome.success (42 : Nat)) false []).cache
      = [] := by
  refine ⟨rfl, rfl, rfl⟩

/-- C2 amended: on success with caching enabled, the cache is written
through exactly when the consuming context is still mounted at settlement;
detach suppresses both the state publications and the cache write.  The
`mutate` and `useSuspenseQuery` conjuncts hold for an arbitrary cache,
including one already holding the key (routine overwrite); only the
`useQuery` conjunct is conditioned on a miss, since on a hit its producer
does not run at all. -/
theorem cache_write_iff_mounted (V : Type) (u : Bool) (k : String) (v : V)
    (m m0 : Bool) (c : Cache V) :
    (cacheLookup c k = none →
      (runQuery u k (Outcome.success v) m c).cache
        = (if m && u then cacheSet c k v else c)) ∧
    (mutate u k (Outcome.success v) m0 m c).cache
      = (if m && u then cacheSet c k v else c) ∧
    (runSuspenseQuery u k (Outcome.success v) m c).cache
      = (if m && u then cacheSet c k v else c) := by
  refine ⟨?_, ?_, ?_⟩
  · intro h
    cases u <;> cases m <;> simp [runQuery, h]
  · cases u <;> cases m <;> simp [mutate]
  · cases u <;> cases m <;> simp [runSuspenseQuery]

/-- Witness for C2's amended theorem at concrete inputs, including a
`mutate` / `useSuspenseQuery` write over a cache already holding the key. -/
theorem cache_write_iff_mounted_witness :
    cacheLookup [("x", (7 : Nat))] "k" = none ∧
    (runQuery true "k" (Outcome.success (42 : Nat)) true [("x", 7)]).cache
      = (if true && true then cacheSet [("x", 7)] "k" 42 else [("x", 7)]) ∧
    (mutate true "k" (Outcome.success (42 : Nat)) true true
        [("k", (7 : Nat))]).cache
      = (if true && true then cacheSet [("k", 7)] "k" 42 else [("k", 7)]) ∧
    (runSuspenseQuery true "k" (Outcome.success (42 : Nat)) true
        [("k", (7 : Nat))]).cache
      = (if true && true then cacheSet [("k", 7)] "k" 42 else [("k", 7)]) := by
  have h : cacheLookup [("x", (7 : Nat))] "k" = none := by decide
  exact ⟨h, (cache_write_iff_mounted Nat true "k" 42 true true [("x", 7)]).1 h,
    (cache_write_iff_mounted Nat true "k" 42 true true [("k", 7)]).2.1,
    (cache_write_iff_mounted Nat true "k" 42 true true [("k", 7)]).2.2⟩

/-- C3 counterexample: a `useAsync` call whose context is detached at
settlement still performs its settlement publications — refuting "every
variant drops all publications after detach". -/
theorem useAsync_publishes_after_detach_cex :
    (newFn (Outcome.success (1 : Nat)) false (initState Nat)).postPubs
      = [Pub.setData 1, Pub.setLoading false] ∧
    (newFn (Outcome.success (1 : Nat)) false (initState Nat)).postPubs ≠ [] := by
  exact ⟨rfl, by decide⟩

/-- C3 amended: `useQuery`, `useMutation` and `useSuspenseQuery` gate every
settlement publication on the mount flag — with the context detached at
settlement no publication occurs — but `useAsync` has no lifecycle guard:
its settlement publications happen regardless of detach. -/
theorem detach_gating_per_hook (V : Type) (u m0 : Bool) (k : String)
    (o : Outcome V) (c : Cache V) (st : ExecState V) :
    (runQuery u k o false c).postPubs = [] ∧
    (mutate u k o m0 false c).postPubs = [] ∧
    (runSuspenseQuery u k o false c).postPubs = [] ∧
    (newFn o false st).postPubs ≠ [] := by
  refine ⟨?_, ?_, ?_, ?_⟩
  · cases u <;> rcases hcl : cacheLookup c k with _ | w <;> cases o <;>
      simp [runQuery, hcl]
  · cases o <;> simp [mutate]
  · cases o <;> simp [runSuspenseQuery]
  · cases o <;> simp [newFn]

/-- C4 counterexample: with caching enabled and the key present in the
cache, a `mutate` call and a `useSuspenseQuery` execution still invoke the
producer and publish the producer's fresh value, not the cached one —
refuting "first performs the cache lookup ... and skips producer
invocation entirely". -/
theorem mutation_suspense_skip_lookup_cex :
    (mutate true "k" (Outcome.success (9 : Nat)) true true [("k", 7)]).invoked
      = true ∧
    (runSuspenseQuery true "k" (Outcome.success (9 : Nat)) true
        [("k", 7)]).invoked = true ∧
    (applyPubs (initState Nat)
        ((mutate true "k" (Outcome.success (9 : Nat)) true true
            [("k", 7)]).prePubs ++
         (mutate true "k" (Outcome.success (9 : Nat)) true true
            [("k", 7)]).postPubs)).data = some 9 := by
  exact ⟨rfl, rfl, rfl⟩

/-- C4 amended: the mutation and suspense variants never consult the cache:
every `mutate` call and every `useSuspenseQuery` execution invokes the
producer unconditionally, and (when mounted at settlement) publishes the
producer's value as `data` regardless of what the cache holds under the
key; caching only controls the success write-through. -/
theorem mutate_suspense_always_invoke (V : Type) (u m0 m1 m : Bool)
    (k : String) (o : Outcome V) (v : V) (c : Cache V) (st : ExecState V) :
    (mutate u k o m0 m1 c).invoked = true ∧
    (runSuspenseQuery u k o m c).invoked = true ∧
    (applyPubs st ((mutate u k (Outcome.success v) m0 true c).prePubs ++
        (mutate u k (Outcome.success v) m0 true c).postPubs)).data
      = some v ∧
    (applyPubs st
        ((runSuspenseQuery u k (Outcome.success v) true c).postPubs)).data
      = some v := by
  refine ⟨?_, ?_, ?_, ?_⟩
  · cases o <;> cases m1 <;> simp [mutate]
  · cases o <;> cases m <;> simp [runSuspenseQuery]
  · cases m0 <;> simp [mutate, applyPubs, applyPub]
  · simp [runSuspenseQuery, applyPubs, applyPub]

/-- C5: when a producer throws, the normalized error is published, the
previously published `data` is left untouched, and the cache — including a
pre-existing entry for the computed key — is exactly what it was before the
failed execution, for `useQuery`, `useMutation` and `useSuspenseQuery`
alike.  Every cache conjunct holds for an arbitrary cache and mount flag
(a failure never writes and never deletes); only the two `useQuery`
publication conjuncts are conditioned on a miss, since on a hit its
producer does not run and so cannot throw. -/
theorem failure_preserves_data_and_cache (V : Type) (u : Bool) (k : String)
    (t : Thrown) (m m0 : Bool) (c : Cache V) (st : ExecState V) :
    (runQuery u k (Outcome.failure t) m c).cache = c ∧
    (cacheLookup c k = none →
      (applyPubs st ((runQuery u k (Outcome.failure t) true c).prePubs ++
          (runQuery u k (Outcome.failure t) true c).postPubs)).data
        = st.data) ∧
    (cacheLookup c k = none →
      (applyPubs st ((runQuery u k (Outcome.failure t) true c).prePubs ++
          (runQuery u k (Outcome.failure t) true c).postPubs)).error
        = some (normalizeError t)) ∧
    (mutate u k (Outcome.failure t) m0 m c).cache = c ∧
    (applyPubs st ((mutate u k (Outcome.failure t) m0 true c).prePubs ++
        (mutate u k (Outcome.failure t) m0 true c).postPubs)).data
      = st.data ∧
    (applyPubs st ((mutate u k (Outcome.failure t) m0 true c).prePubs ++
        (mutate u k (Outcome.failure t) m0 true c).postPubs)).error
      = some (normalizeError t) ∧
    (runSuspenseQuery u k (Outcome.failure t) m c).cache = c := by
  refine ⟨?_, ?_, ?_, ?_, ?_, ?_, ?_⟩
  · cases u <;> rcases hcl : cacheLookup c k with _ | w <;> cases m <;>
      simp [runQuery, hcl]
  · intro h
    cases u <;> simp [runQuery, h, applyPubs, applyPub]
  · intro h
    cases u <;> simp [runQuery, h, applyPubs, applyPub]
  · cases m <;> cases m0 <;> simp [mutate]
  · cases m0 <;> simp [mutate, applyPubs, applyPub]
  · cases m0 <;> simp [mutate, applyPubs, applyPub]
  · cases m <;> simp [runSuspenseQuery]

/-- Witness for C5 at a concrete input whose cache already holds an entry,
with the miss hypotheses of the `useQuery` conjuncts discharged. -/
theorem failure_preserves_data_and_cache_witness :
    cacheLookup [("x", (7 : Nat))] "k" = none ∧
    ((runQuery true "k" (Outcome.failure (Thrown.errorVal ⟨"E"⟩)) false
        [("x", (7 : Nat))]).cache = [("x", 7)] ∧
     (applyPubs (initState Nat)
        ((runQuery true "k" (Outcome.failure (Thrown.errorVal ⟨"E"⟩)) true
            [("x", 7)]).prePubs ++
         (runQuery true "k" (Outcome.failure (Thrown.errorVal ⟨"E"⟩)) true
            [("x", 7)]).postPubs)).data = (initState Nat).data ∧
     (applyPubs (initState Nat)
        ((runQuery true "k" (Outcome.failure (Thrown.errorVal ⟨"E"⟩)) true
            [("x", 7)]).prePubs ++
         (runQuery true "k" (Outcome.failure (Thrown.errorVal ⟨"E"⟩)) true
            [("x", 7)]).postPubs)).error
       = some (normalizeError (Thrown.errorVal ⟨"E"⟩)) ∧
     (mutate true "k" (Outcome.failure (Thrown.errorVal ⟨"E"⟩)) true false
        [("k", (7 : Nat))]).cache = [("k", 7)] ∧
     (applyPubs (initState Nat)
        ((mutate true "k" (Outcome.failure (Thrown.errorVal ⟨"E"⟩)) true true
            [("x", (7 : Nat))]).prePubs ++
         (mutate true "k" (Outcome.failure (Thrown.errorVal ⟨"E"⟩)) true true
            [("x", (7 : Nat))]).postPubs)).data = (initState Nat).data ∧
     (applyPubs (initState Nat)
        ((mutate true "k" (Outcome.failure (Thrown.errorVal ⟨"E"⟩)) true true
            [("x", (7 : Nat))]).prePubs ++
         (mutate true "k" (Outcome.failure (Thrown.errorVal ⟨"E"⟩)) true true
            [("x", (7 : Nat))]).postPubs)).error
       = some (normalizeError (Thrown.errorVal ⟨"E"⟩)) ∧
     (runSuspenseQuery true "k" (Outcome.failure (Thrown.errorVal ⟨"E"⟩))
        false [("k", (7 : Nat))]).cache = [("k", 7)]) := by
  have h : cacheLookup [("x", (7 : Nat))] "k" = none := by decide
  have H1 := failure_preserves_data_and_cache Nat true "k"
    (Thrown.errorVal ⟨"E"⟩) false true [("x", 7)] (initState Nat)
  have H2 := failure_preserves_data_and_cache Nat true "k"
    (Thrown.errorVal ⟨"E"⟩) false true [("k", 7)] (initState Nat)
  exact ⟨h, H1.1, H1.2.1 h, H1.2.2.1 h, H2.2.2.2.1, H1.2.2.2.2.1,
    H1.2.2.2.2.2.1, H2.2.2.2.2.2.2⟩

/-- C6: a thrown native error is published unchanged, a thrown non-error
value is replaced by the generic normalized error (never the raw value —
for the thrown string "boom" the published message is not "boom"); on a
fresh controller, such a failure ends with `data` still absent, `loading`
false, and the generic error published. -/
theorem error_normalization (V : Type) (e : JSError) (v : JSValue)
    (u : Bool) (k : String) :
    normalizeError (Thrown.errorVal e) = e ∧
    normalizeError (Thrown.nonError v)
      = ⟨"An unexpected error occured :("⟩ ∧
    (normalizeError (Thrown.nonError (JSValue.str "boom"))).message
      ≠ "boom" ∧
    applyPubs (initState V)
        ((runQuery u k (Outcome.failure (Thrown.nonError v)) true []).prePubs
          ++
         (runQuery u k (Outcome.failure (Thrown.nonError v)) true []).postPubs)
      = ⟨none, false, some ⟨"An unexpected error occured :("⟩⟩ := by
  refine ⟨rfl, rfl, by decide, ?_⟩
  cases u <;>
    simp [runQuery, cacheLookup, normalizeError, applyPubs, applyPub, initState]

/-- C7 counterexample: a failed `useQuery` run followed by a successful run
of the same controller ends with the old error still published alongside
the fresh data — refuting "error becomes undefined when the execution
starts" and "after any successful run the error field is undefined". -/
theorem error_not_cleared_cex :
    applyPubs
      (applyPubs (initState Nat)
        ((runQuery true "k" (Outcome.failure (Thrown.errorVal ⟨"E"⟩)) true
            []).prePubs ++
         (runQuery true "k" (Outcome.failure (Thrown.errorVal ⟨"E"⟩)) true
            []).postPubs))
      ((runQuery true "k" (Outcome.success (5 : Nat)) true
          (runQuery true "k" (Outcome.failure (Thrown.errorVal ⟨"E"⟩)) true
            []).cache).prePubs ++
       (runQuery true "k" (Outcome.success (5 : Nat)) true
          (runQuery true "k" (Outcome.failure (Thrown.errorVal ⟨"E"⟩)) true
            []).cache).postPubs)
      = ⟨some 5, false, some ⟨"E"⟩⟩ := by
  rfl

/-- C7 amended: neither `useQuery` nor `useMutation` ever clears a prior
error — not at execution start and not on success, so the error field
persists through subsequent successful runs; only `useAsync` clears the
error, synchronously at call start. -/
theorem error_never_cleared_on_success (V : Type) (u m m0 m1 l : Bool)
    (k : String) (v : V) (c : Cache V) (st : ExecState V) (o : Outcome V) :
    (applyPubs st ((runQuery u k (Outcome.success v) m c).prePubs ++
        (runQuery u k (Outcome.success v) m c).postPubs)).error = st.error ∧
    (applyPubs st ((mutate u k (Outcome.success v) m0 m1 c).prePubs ++
        (mutate u k (Outcome.success v) m0 m1 c).postPubs)).error
      = st.error ∧
    (applyPubs st (newFn o l st).prePubs).error = none := by
  refine ⟨?_, ?_, ?_⟩
  · cases u <;> rcases hcl : cacheLookup c k with _ | w <;> cases m <;>
      simp [runQuery, hcl, applyPubs, applyPub]
  · cases m0 <;> cases m1 <;> simp [mutate, applyPubs, applyPub]
  · simp [newFn, applyPubs, applyPub]

/-- C9: for a genuine (producer-invoking) mounted execution, `loading=true`
is published before the producer is invoked (it is the sole pre-suspension
publication), and the settlement trace is exactly the payload (`data` on
success, the normalized error on failure) followed by `loading=false` —
so `loading=false` is always the last publication; likewise for `useAsync`,
whose pre-suspension publications are the error reset then `loading=true`. -/
theorem publication_ordering (V : Type) (u l : Bool) (k : String)
    (o o' : Outcome V) (c : Cache V) (st : ExecState V)
    (h : (runQuery u k o true c).invoked = true) :
    (runQuery u k o true c).prePubs = [Pub.setLoading true] ∧
    (runQuery u k o true c).postPubs
      = [settledPub o, Pub.setLoading false] ∧
    (newFn o' l st).prePubs = [Pub.setError none, Pub.setLoading true] ∧
    (newFn o' l st).postPubs = [settledPub o', Pub.setLoading false] := by
  refine ⟨?_, ?_, ?_, ?_⟩
  · cases u <;> rcases hcl : cacheLookup c k with _ | w <;> cases o <;>
      simp_all [runQuery, hcl]
  · cases u <;> rcases hcl : cacheLookup c k with _ | w <;> cases o <;>
      simp_all [runQuery, hcl, settledPub]
  · cases o' <;> simp [newFn]
  · cases o' <;> simp [newFn, settledPub]

/-- Witness for C9 at a concrete input. -/
theorem publication_ordering_witness :
    (runQuery true "k" (Outcome.success (3 : Nat)) true []).invoked = true ∧
    ((runQuery true "k" (Outcome.success (3 : Nat)) true []).prePubs
       = [Pub.setLoading true] ∧
     (runQuery true "k" (Outcome.success (3 : Nat)) true []).postPubs
       = [settledPub (Outcome.success 3), Pub.setLoading false] ∧
     (newFn (Outcome.failure (Thrown.nonError (JSValue.str "boom"))) true
        (initState Nat)).prePubs
       = [Pub.setError none, Pub.setLoading true] ∧
     (newFn (Outcome.failure (Thrown.nonError (JSValue.str "boom"))) true
        (initState Nat)).postPubs
       = [settledPub (Outcome.failure (Thrown.nonError (JSValue.str "boom"))),
          Pub.setLoading false]) :=
  ⟨rfl, publication_ordering Nat true true "k" (Outcome.success 3)
    (Outcome.failure (Thrown.nonError (JSValue.str "boom"))) []
    (initState Nat) rfl⟩

/-- C10: a call to the function returned by `useAsync` immediately returns
the `data` of the previously completed run (`none` before any run has
completed) — a value independent of the outcome of the invocation it just
started; the fresh result becomes observable only through the settlement
publications. -/
theorem newFn_returns_stale_data (V : Type) (o o' : Outcome V) (l l' : Bool)
    (st : ExecState V) (v : V) :
    (newFn o l st).immediateReturn = st.data ∧
    (newFn o l st).immediateReturn = (newFn o' l' st).immediateReturn ∧
    (newFn (Outcome.success v) l (initState V)).immediateReturn = none ∧
    (applyPubs st ((newFn (Outcome.success v) l st).prePubs ++
        (newFn (Outcome.success v) l st).postPubs)).data = some v := by
  refine ⟨rfl, rfl, rfl, ?_⟩
  simp [newFn, applyPubs, applyPub]

mutual

/-- A JS value containing no object literal (primitives and arrays only). -/
def objFree : JSValue → Bool
  | .nul => true
  | .undef => true
  | .boolean _ => true
  | .num _ => true
  | .str _ => true
  | .arr xs => objFreeList xs
  | .obj _ => false

/-- Every value of the list is object-free. -/
def objFreeList : List JSValue → Bool
  | [] => true
  | v :: vs => objFree v && objFreeList vs

end

mutual

/-- On object-free values, deep equality collapses to structural equality:
property order, the one thing `JSON.stringify` is sensitive to but deep
equality is not, only exists inside objects. -/
theorem deepEqual_eq_of_objFree : (v w : JSValue) → objFree v = true →
    deepEqual v w = true → v = w
  | .nul, w, _, h => by cases w <;> simp_all [deepEqual]
  | .undef, w, _, h => by cases w <;> simp_all [deepEqual]
  | .boolean _, w, _, h => by cases w <;> simp_all [deepEqual]
  | .num _, w, _, h => by cases w <;> simp_all [deepEqual]
  | .str _, w, _, h => by cases w <;> simp_all [deepEqual]
  | .obj _, _, hv, _ => by simp [objFree] at hv
  | .arr xs, .arr ys, hv, h =>
    congrArg JSValue.arr
      (deepEqualList_eq_of_objFree xs ys (by simpa [objFree] using hv)
        (by simpa [deepEqual] using h))
  | .arr _, .nul, _, h => by simp [deepEqual] at h
  | .arr _, .undef, _, h => by simp [deepEqual] at h
  | .arr _, .boolean _, _, h => by simp [deepEqual] at h
  | .arr _, .num _, _, h => by simp [deepEqual] at h
  | .arr _, .str _, _, h => by simp [deepEqual] at h
  | .arr _, .obj _, _, h => by simp [deepEqual] at h

/-- List version of `deepEqual_eq_of_objFree`. -/
theorem deepEqualList_eq_of_objFree : (xs ys : List JSValue) →
    objFreeList xs = true → deepEqualList xs ys = true → xs = ys
  | [], [], _, _ => rfl
  | [], _ :: _, _, h => by simp [deepEqualList] at h
  | _ :: _, [], _, h => by simp [deepEqualList] at h
  | x :: xs, y :: ys, hv, h => by
    have h1 : deepEqual x y = true ∧ deepEqualList xs ys = true := by
      simpa [deepEqualList] using h
    have hv1 : objFree x = true ∧ objFreeList xs = true := by
      simpa [objFreeList] using hv
    rw [deepEqual_eq_of_objFree x y hv1.1 h1.1,
      deepEqualList_eq_of_objFree xs ys hv1.2 h1.2]

end

/-- C8 counterexample: two deep-equal one-element argument lists, whose
single object differs only in property order, produce different cache
keys, because `JSON.stringify` preserves property order while deep
equality ignores it. -/
theorem deepEqual_key_mismatch_cex :
    deepEqualList
        [JSValue.obj [("a", JSValue.num 1), ("b", JSValue.num 2)]]
        [JSValue.obj [("b", JSValue.num 2), ("a", JSValue.num 1)]] = true ∧
    generateCacheKey ⟨"f", "() => 1"⟩
        [JSValue.obj [("a", JSValue.num 1), ("b", JSValue.num 2)]]
      ≠ generateCacheKey ⟨"f", "() => 1"⟩
        [JSValue.obj [("b", JSValue.num 2), ("a", JSValue.num 1)]] := by
  exact ⟨by decide, by decide⟩

/-- C8 amended: key stability under deep equality holds exactly up to
object property order — for argument lists whose values contain no object
literal, deep-equal lists always yield the same cache key (with no
explicit key override); lists containing deep-equal objects with different
property orders may yield different keys. -/
theorem generateCacheKey_deepEqual_objFree (f : ProducerFn)
    (a1 a2 : List JSValue) (hof : objFreeList a1 = true)
    (h : deepEqualList a1 a2 = true) :
    generateCacheKey f a1 = generateCacheKey f a2 := by
  rw [deepEqualList_eq_of_objFree a1 a2 hof h]

/-- Witness for C8's amended theorem at a concrete input. -/
theorem generateCacheKey_deepEqual_objFree_witness :
    objFreeList [JSValue.num 1, JSValue.arr [JSValue.str "x"]] = true ∧
    deepEqualList [JSValue.num 1, JSValue.arr [JSValue.str "x"]]
      [JSValue.num 1, JSValue.arr [JSValue.str "x"]] = true ∧
    generateCacheKey ⟨"f", "() => 1"⟩
        [JSValue.num 1, JSValue.arr [JSValue.str "x"]]
      = generateCacheKey ⟨"f", "() => 1"⟩
        [JSValue.num 1, JSValue.arr [JSValue.str "x"]] :=
  ⟨by decide, by decide,
    generateCacheKey_deepEqual_objFree ⟨"f", "() => 1"⟩
      [JSValue.num 1, JSValue.arr [JSValue.str "x"]]
      [JSValue.num 1, JSValue.arr [JSValue.str "x"]]
      (by decide) (by decide)⟩

end NitroQuery
